import Mathlib

/-!
Verification development for the talent-pool breakdown dashboards.

The repository holds two near-duplicate dashboard scripts over one CSV of
candidate folder-move events:

* `Talent-pool-breakdown.py` — the latest-activity classifier and the
  time-band / daily pivot tables (embedded below in namespace `Breakdown`);
* `CANDIDATE PIPELINE CONVERSIONS.py` — the transition/funnel metric engine
  (embedded below in namespace `Pipeline`).

Timestamps are modelled as integers counting seconds (`daySecs` seconds per
day); a pandas `Timedelta.days` value is the floor of the difference divided
by `daySecs`, i.e. `Int.fdiv`.  Nullable CSV fields are modelled as `Option`.
Rows whose timestamps failed to parse are dropped by the loader
(`dropna` in `load_data`), so event timestamps in a loaded table are total.
Floating-point display formatting (`"{:.1f}"`, `"{:.2f}"`) is presentation
only and is modelled by keeping the exact (sum, length) / (count, total)
pairs, with `none` standing for the `"N/A"` string.
-/

/-- Seconds in one day; pandas `Timedelta(days=1)`. -/
def daySecs : Int := 86400

/-- Strip leading and trailing whitespace from a character list
(Python `str.strip()` on the ASCII data at hand). -/
def trimChars (l : List Char) : List Char :=
  ((l.dropWhile Char.isWhitespace).reverse.dropWhile Char.isWhitespace).reverse

/-- Folder-name normalization used by the pipeline-conversions script:
`fillna('').str.strip().str.lower()`. -/
def normFolder (o : Option String) : String :=
  ⟨(trimChars (o.getD "").data).map Char.toLower⟩

/-- Condition normalization `condition.strip().lower()`. -/
def normCond (s : String) : String := ⟨(trimChars s.data).map Char.toLower⟩

/-- Consecutive pairs of a list: the pairs `(l[i], l[i+1])`, in order.  Used
to model `Series.diff()` / `Series.shift(1)` comparisons. -/
def adjPairs {α : Type*} : List α → List (α × α)
  | [] => []
  | [_] => []
  | a :: b :: rest => (a, b) :: adjPairs (b :: rest)

/-- Maximum of a list of timestamps (`none` on the empty list), modelling a
pandas `groupby(...).max()` entry with `NaT` for a missing key. -/
def maxTime? (l : List Int) : Option Int :=
  l.foldr (fun t acc => match acc with | none => some t | some m => some (max t m)) none

/-- Minimum of a list of timestamps (`none` on the empty list), modelling a
pandas `groupby(...).min()` entry with `NaT` for a missing key. -/
def minTime? (l : List Int) : Option Int :=
  l.foldr (fun t acc => match acc with | none => some t | some m => some (min t m)) none

namespace Breakdown

/-- `SYSTEM_FOLDERS` from `Talent-pool-breakdown.py` (note: includes `''`). -/
def SYSTEM_FOLDERS : List String :=
  ["", "Inbox", "Unresponsive", "Completed", "Unresponsive Talkscore", "Passed MQ", "Failed MQ",
   "TalkScore Retake", "Unresponsive Talkscore Retake", "Failed TalkScore", "Cold Leads",
   "Cold Leads Talkscore", "Cold Leads Talkscore Retake", "On hold", "Rejected",
   "Talent Pool", "Shortlisted", "Hired", "Candidate Databank", "For Talkscore",
   "Tier 2 Program", "Tier 1 Program", "For Versant", "For Reengagement"]

/-- One row of `filtered_tp`: a folder-move event.  Only the columns the
classifier reads are modelled.  `activityAt` is `ACTIVITY_CREATED_AT`
(non-null after `load_data` drops unparseable dates). -/
structure Row where
  cid : Nat
  folderFrom : Option String
  folderTo : Option String
  activityAt : Int
  failedReason : Option String
deriving DecidableEq

/-- `FOLDER_x_TITLE.notna() & ~FOLDER_x_TITLE.isin(SYSTEM_FOLDERS)` — note the
comparison is on the raw string, with no case or whitespace normalization. -/
def isClientFolderTitle (o : Option String) : Bool :=
  match o with
  | none => false
  | some s => decide (s ∉ SYSTEM_FOLDERS)

/-- `client_folder_activity_mask = from_is_client | to_is_client`. -/
def client_folder_activity_mask (r : Row) : Bool :=
  isClientFolderTitle r.folderFrom || isClientFolderTitle r.folderTo

/-- `ids_with_client_folder_history`: distinct candidate ids having any event
whose source or destination is a client folder, over the whole filtered
history. -/
def ids_with_client_folder_history (df : List Row) : List Nat :=
  ((df.filter client_folder_activity_mask).map (·.cid)).dedup

/-- `latest_activity['in_client_folder']` for one candidate id. -/
def in_client_folder (df : List Row) (c : Nat) : Bool :=
  decide (c ∈ ids_with_client_folder_history df)

/-- `get_row_label` from `Talent-pool-breakdown.py`, applied to a
latest-activity row together with its precomputed `in_client_folder` flag. -/
def get_row_label (row : Row) (inClient : Bool) : Option String :=
  if row.folderTo = some "Candidate Databank" then
    some "Candidate Databank (in Cooling Period)"
  else if row.folderTo = some "Talent Pool" ∧ inClient = false ∧ row.failedReason = none then
    some "New (for endorsement)"
  else if inClient = true ∧ row.folderTo ≠ some "Candidate Databank" ∧ row.failedReason ≠ none then
    some "Rejected (for waterfall)"
  else none

/-- `get_time_bucket` from `Talent-pool-breakdown.py`:
`days = (datetime.now() - activity_date).days` then fixed bands. -/
def get_time_bucket (now : Int) (activityDate : Option Int) : Option String :=
  match activityDate with
  | none => none
  | some t =>
    let days := (now - t).fdiv daySecs
    if days < 1 then some "<24hrs"
    else if 1 ≤ days ∧ days ≤ 3 then some "1-3 days"
    else if 4 ≤ days ∧ days ≤ 7 then some "4-7 days"
    else if 8 ≤ days ∧ days ≤ 15 then some "8-15 days"
    else if 16 ≤ days ∧ days ≤ 30 then some "16-30 days"
    else some "31+ days"

/-- `time_categories` — the fixed band order of the pivot columns. -/
def time_categories : List String :=
  ["<24hrs", "1-3 days", "4-7 days", "8-15 days", "16-30 days", "31+ days"]

/-- `row_categories` — the fixed label order of the pivot rows. -/
def row_categories : List String :=
  ["New (for endorsement)", "Rejected (for waterfall)", "Candidate Databank (in Cooling Period)"]

/-- `Series.idxmax` row selection: the first row attaining the maximal
`activityAt` (pandas `idxmax` returns the first occurrence of the maximum). -/
def idxmax_pick (l : List Row) : Option Row :=
  l.foldl
    (fun acc r =>
      match acc with
      | none => some r
      | some b => if b.activityAt < r.activityAt then some r else some b)
    none

/-- The distinct candidate ids of the filtered table, in first-seen order. -/
def cids_dedup (df : List Row) : List Nat := (df.map (·.cid)).dedup

/-- The latest-activity row of one candidate:
`df.loc[df.groupby('CAMPAIGNINVITATIONID')['ACTIVITY_CREATED_AT'].idxmax()]`
restricted to that candidate. -/
def latest_row (df : List Row) (c : Nat) : Option Row :=
  idxmax_pick (df.filter (fun r => decide (r.cid = c)))

/-- `latest_activity`: one row per distinct candidate, the row with the
maximal event timestamp. -/
def latest_activity (df : List Row) : List Row :=
  (cids_dedup df).filterMap (latest_row df)

/-- One row of `pivot_data`: candidate id with its `Row_label` and
`Column_label`. -/
structure Entry where
  cid : Nat
  rowLabel : String
  columnLabel : Option String
deriving DecidableEq

/-- `pivot_data = latest_activity.dropna(subset=['Row_label'])` with the two
label columns attached. -/
def pivot_data (df : List Row) (now : Int) : List Entry :=
  (latest_activity df).filterMap fun r =>
    match get_row_label r (in_client_folder df r.cid) with
    | none => none
    | some lab => some ⟨r.cid, lab, get_time_bucket now (some r.activityAt)⟩

/-- `aggfunc='nunique'` on `CAMPAIGNINVITATIONID`: number of distinct
candidate ids among the entries satisfying `p`. -/
def nunique_cids (l : List Entry) (p : Entry → Bool) : Nat :=
  ((l.filter p).map (·.cid)).dedup.length

/-- One cell of `pivot_table_time` (after `reindex`, missing cells are 0). -/
def pivot_cell (df : List Row) (now : Int) (lab b : String) : Nat :=
  nunique_cids (pivot_data df now)
    (fun e => decide (e.rowLabel = lab) && decide (e.columnLabel = some b))

/-- The `Grand Total` column cell of a label row: `sum(axis=1)` over the six
time-band columns. -/
def grand_total_cell (df : List Row) (now : Int) (lab : String) : Nat :=
  (time_categories.map (fun b => pivot_cell df now lab b)).sum

/-- The number of distinct candidates bearing label `lab`. -/
def label_total (df : List Row) (now : Int) (lab : String) : Nat :=
  nunique_cids (pivot_data df now) (fun e => decide (e.rowLabel = lab))

/-- Spec-side predicate: the folder is null or inside the System Folder Set. -/
def system_or_null (o : Option String) : Prop :=
  match o with
  | none => True
  | some s => s ∈ SYSTEM_FOLDERS

instance (o : Option String) : Decidable (system_or_null o) := by
  unfold system_or_null; cases o <;> infer_instance

/-- One raw CSV row before date coercion: the two date columns may fail to
parse (`errors='coerce'` giving `NaT`, modelled `none`). -/
structure RawRow where
  cid : Nat
  invitationDt : Option Int
  activityAt : Option Int
  folderFrom : Option String
  folderTo : Option String
  failedReason : Option String

/-- `load_data` from `Talent-pool-breakdown.py`.  The CSV file is modelled as
`Option` input (`none` = the file is missing).  A missing file is caught by
`except FileNotFoundError`, reported via `st.error`/`st.info`, and `None` is
returned; otherwise dates are coerced and rows with a missing date dropped. -/
def load_data (file : Option (List RawRow)) : Option (List Row) :=
  match file with
  | none => none
  | some raw =>
      some (raw.filterMap fun rr =>
        match rr.invitationDt, rr.activityAt with
        | some _, some a => some ⟨rr.cid, rr.folderFrom, rr.folderTo, a, rr.failedReason⟩
        | _, _ => none)

/-- Outcome of one rendering pass of the script, as far as loading goes. -/
inductive RenderOutcome where
  | reportedLoadFailure
  | proceeded (tp : List Row)
deriving DecidableEq

/-- Top level of `Talent-pool-breakdown.py`: `tp = load_data()` then
`if tp is not None: ... else: st.info("Data could not be loaded...")`. -/
def render (file : Option (List RawRow)) : RenderOutcome :=
  match load_data file with
  | none => RenderOutcome.reportedLoadFailure
  | some tp => RenderOutcome.proceeded tp

end Breakdown

namespace Pipeline

/-- `SYSTEM_FOLDERS` from `CANDIDATE PIPELINE CONVERSIONS.py` (no `''`). -/
def SYSTEM_FOLDERS : List String :=
  ["Inbox", "Unresponsive", "Completed", "Unresponsive Talkscore", "Passed MQ", "Failed MQ",
   "TalkScore Retake", "Unresponsive Talkscore Retake", "Failed TalkScore", "Cold Leads",
   "Cold Leads Talkscore", "Cold Leads Talkscore Retake", "On hold", "Rejected",
   "Talent Pool", "Shortlisted", "Hired", "Candidate Databank", "For Talkscore",
   "Tier 2 Program", "Tier 1 Program", "For Versant", "For Reengagement"]

/-- `SYSTEM_FOLDERS_LOWER = {s.lower() for s in SYSTEM_FOLDERS}`. -/
def SYSTEM_FOLDERS_LOWER : List String := SYSTEM_FOLDERS.map String.toLower

/-- One row of `cp_filtered`: a folder-move event as the metric engine sees
it.  `activityAt` is `ACTIVITY_CREATED_AT`, assumed parsed (the sibling
loader drops unparseable dates; `INVITATIONDT` only drives the date filter,
which precedes the modelled computation). -/
structure Row where
  cid : Nat
  folderFrom : Option String
  folderTo : Option String
  activityAt : Int
deriving DecidableEq

/-- The precomputed `FOLDER_FROM_TITLE_CLEAN` column. -/
def fromNorm (r : Row) : String := normFolder r.folderFrom

/-- The precomputed `FOLDER_TO_TITLE_CLEAN` column. -/
def toNorm (r : Row) : String := normFolder r.folderTo

/-- Sort key of `sort_values(['CAMPAIGNINVITATIONID', 'ACTIVITY_CREATED_AT'])`. -/
def lexLe (a b : Row) : Prop :=
  a.cid < b.cid ∨ (a.cid = b.cid ∧ a.activityAt ≤ b.activityAt)

instance : DecidableRel lexLe := fun a b =>
  inferInstanceAs (Decidable (a.cid < b.cid ∨ (a.cid = b.cid ∧ a.activityAt ≤ b.activityAt)))

instance : IsTotal Row lexLe := ⟨fun a b => by unfold lexLe; omega⟩

instance : IsTrans Row lexLe := ⟨fun a b c hab hbc => by unfold lexLe at *; omega⟩

/-- `cp_sorted = cp_filtered.sort_values([cid, activity time])`. -/
def cp_sorted (df : List Row) : List Row := List.insertionSort lexLe df

/-- The mask applied to a consecutive pair of the sorted table:
`(time_diffs > pd.Timedelta(days=7)) & is_same_candidate`. -/
def unengaged_pair (p : Row × Row) : Bool :=
  decide (7 * daySecs < p.2.activityAt - p.1.activityAt) && decide (p.1.cid = p.2.cid)

/-- `unengaged_cids_set`: candidates with some consecutive gap over 7 days. -/
def unengaged_cids_set (df : List Row) : List Nat :=
  (((adjPairs (cp_sorted df)).filter unengaged_pair).map (fun p => p.2.cid)).dedup

/-- `absolute_start_times`: per candidate, the earliest event timestamp over
the whole filtered table (`groupby(cid)['ACTIVITY_CREATED_AT'].min()`). -/
def absolute_start_times (df : List Row) (c : Nat) : Option Int :=
  minTime? ((df.filter (fun r => decide (r.cid = c))).map (·.activityAt))

/-- The from-condition mask on the source-folder column (`fcl` is the
already trimmed and lowercased condition). -/
def from_mask (fcl : String) (r : Row) : Bool :=
  if fcl = "any" then r.folderFrom.isSome
  else if fcl = "client folder" then
    !(decide (fromNorm r ∈ SYSTEM_FOLDERS_LOWER)) && !(decide (fromNorm r = ""))
  else decide (fromNorm r = fcl)

/-- The to-condition mask on the destination-folder column. -/
def to_mask (tcl : String) (r : Row) : Bool :=
  if tcl = "client folder" then
    !(decide (toNorm r ∈ SYSTEM_FOLDERS_LOWER)) && !(decide (toNorm r = ""))
  else decide (toNorm r = tcl)

/-- `event_mask = from_mask & to_mask`: a transition row. -/
def event_mask (fcl tcl : String) (r : Row) : Bool := from_mask fcl r && to_mask tcl r

/-- `cids_with_transition`: distinct candidates having a transition row. -/
def cids_with_transition (df : List Row) (fcl tcl : String) : List Nat :=
  ((df.filter (event_mask fcl tcl)).map (·.cid)).dedup

/-- `from_time_mask`: the from-condition applied to the DESTINATION column,
used to find when a candidate entered the from stage. -/
def from_time_mask (fcl : String) (r : Row) : Bool :=
  if fcl = "client folder" then
    !(decide (toNorm r ∈ SYSTEM_FOLDERS_LOWER)) && !(decide (toNorm r = ""))
  else decide (toNorm r = fcl)

/-- `relevant_from_times = df[df[cid].isin(cids_with_transition) & from_time_mask]`. -/
def relevant_from_times (df : List Row) (fcl tcl : String) : List Row :=
  df.filter (fun r => decide (r.cid ∈ cids_with_transition df fcl tcl) && from_time_mask fcl r)

/-- `from_times_per_cid`: the `.get(cid, pd.NaT)` lookup into either the
precomputed absolute start times (from-condition `any`) or the groupby-max
of `relevant_from_times`. -/
def from_times_per_cid (df : List Row) (fcl tcl : String)
    (app_start_times : Nat → Option Int) (c : Nat) : Option Int :=
  if fcl = "any" then app_start_times c
  else maxTime?
    (((relevant_from_times df fcl tcl).filter (fun r => decide (r.cid = c))).map (·.activityAt))

/-- `relevant_to_times = df[df[cid].isin(cids_with_transition) & to_mask]`. -/
def relevant_to_times (df : List Row) (fcl tcl : String) : List Row :=
  df.filter (fun r => decide (r.cid ∈ cids_with_transition df fcl tcl) && to_mask tcl r)

/-- `to_times_per_cid`: groupby-max of `relevant_to_times`, `.get(cid, NaT)`. -/
def to_times_per_cid (df : List Row) (fcl tcl : String) (c : Nat) : Option Int :=
  maxTime?
    (((relevant_to_times df fcl tcl).filter (fun r => decide (r.cid = c))).map (·.activityAt))

/-- The loop body guard and value:
`if pd.notna(from_time) and pd.notna(to_time) and to_time >= from_time:
  delta_days = (to_time - from_time).days`. -/
def duration_of (fromTime? toTime? : Option Int) : Option Int :=
  match fromTime?, toTime? with
  | some f, some t => if f ≤ t then some ((t - f).fdiv daySecs) else none
  | _, _ => none

/-- The whole-day duration one candidate contributes to the averages (if any). -/
def duration_contribution (df : List Row) (fcl tcl : String)
    (app_start_times : Nat → Option Int) (c : Nat) : Option Int :=
  duration_of (from_times_per_cid df fcl tcl app_start_times c) (to_times_per_cid df fcl tcl c)

/-- `avg_durations` (the source builds this list and the threshold list in a
single loop over `cids_with_transition`; the same multiset results). -/
def avg_durations (df : List Row) (fcl tcl : String)
    (app_start_times : Nat → Option Int) : List Int :=
  (cids_with_transition df fcl tcl).filterMap (duration_contribution df fcl tcl app_start_times)

/-- `avg_time_threshold_durations`: as `avg_durations`, restricted to the
engaged subset (`cids_with_transition` minus the unengaged set). -/
def avg_time_threshold_durations (df : List Row) (fcl tcl : String)
    (unengaged_cids : List Nat) (app_start_times : Nat → Option Int) : List Int :=
  ((cids_with_transition df fcl tcl).filter (fun c => !(decide (c ∈ unengaged_cids)))).filterMap
    (duration_contribution df fcl tcl app_start_times)

/-- Average display: `"N/A"` when the duration list is empty (modelled as
`none`), otherwise the exact pair (sum, length) whose quotient the script
formats to one decimal. -/
def avgDisplay (l : List Int) : Option (Int × Nat) :=
  match l with
  | [] => none
  | _ => some (l.sum, l.length)

/-- The summary row produced by `compute_metric_optimized`.  `percentage`
holds the exact (count, total) pair the script formats to two decimals, with
`none` standing for the `total_cids == 0` branch that prints `"0.00"`. -/
structure MetricResult where
  count : Nat
  percentage : Option (Nat × Nat)
  avgTimeDays : Option (Int × Nat)
  avgTimeThresholdDays : Option (Int × Nat)
  unengagedCandidatesCount : Nat
deriving DecidableEq

/-- `compute_metric_optimized` from `CANDIDATE PIPELINE CONVERSIONS.py`. -/
def compute_metric_optimized (df : List Row) (from_condition to_condition : String)
    (total_cids : Nat) (unengaged_cids : List Nat)
    (app_start_times : Nat → Option Int) : MetricResult :=
  let fcl := normCond from_condition
  let tcl := normCond to_condition
  let cids := cids_with_transition df fcl tcl
  { count := cids.length
    percentage := if total_cids = 0 then none else some (cids.length, total_cids)
    avgTimeDays := avgDisplay (avg_durations df fcl tcl app_start_times)
    avgTimeThresholdDays :=
      avgDisplay (avg_time_threshold_durations df fcl tcl unengaged_cids app_start_times)
    unengagedCandidatesCount := (cids.filter (fun c => decide (c ∈ unengaged_cids))).length }

/-- `cp_original = pd.read_csv("SOURCING & EARLY STAGE METRICS.csv")` at
module scope, with no surrounding `try`: when the file is missing
(`none` input) the call raises `FileNotFoundError`, which nothing in the
script catches; the propagating exception is modelled as `Except.error`. -/
def cp_original {α : Type*} (file : Option α) : Except String α :=
  match file with
  | none => Except.error "FileNotFoundError"
  | some raw => Except.ok raw

/-- Spec-side definition, following the spec's words: "start time = each
candidate's globally earliest event timestamp". -/
def spec_earliest_event (df : List Row) (c : Nat) : Option Int :=
  minTime? ((df.filter (fun r => decide (r.cid = c))).map (·.activityAt))

/-- Spec-side definition, following the spec's words: "the candidate's latest
event timestamp where the destination matches" the given condition. -/
def spec_latest_into (df : List Row) (destMatches : Row → Bool) (c : Nat) : Option Int :=
  maxTime? ((df.filter (fun r => decide (r.cid = c) && destMatches r)).map (·.activityAt))

/-- Spec-side definition: "Duration = end − start in whole days; discarded
if end < start or either time is missing". -/
def spec_duration (startTime endTime : Option Int) : Option Int :=
  match startTime, endTime with
  | some s, some e => if e < s then none else some ((e - s).fdiv daySecs)
  | _, _ => none

/-- Spec-side definition: the candidate's event timestamps, sorted. -/
def sorted_times (df : List Row) (c : Nat) : List Int :=
  List.insertionSort (· ≤ ·) ((df.filter (fun r => decide (r.cid = c))).map (·.activityAt))

/-- Two rows agree up to folder-name normalization: nullity and the
trimmed/lowercased folder names coincide on both folder columns. -/
def rows_norm_equiv (r r' : Row) : Prop :=
  r.folderFrom.isSome = r'.folderFrom.isSome
  ∧ normFolder r.folderFrom = normFolder r'.folderFrom
  ∧ r.folderTo.isSome = r'.folderTo.isSome
  ∧ normFolder r.folderTo = normFolder r'.folderTo

instance (r r' : Row) : Decidable (rows_norm_equiv r r') := by
  unfold rows_norm_equiv; infer_instance

end Pipeline

namespace Breakdown

/-- Characterization of `get_time_bucket` by age intervals (in seconds). -/
theorem get_time_bucket_char (now t : Int) :
    get_time_bucket now (some t) =
      (if now - t < daySecs then some "<24hrs"
       else if now - t < 4 * daySecs then some "1-3 days"
       else if now - t < 8 * daySecs then some "4-7 days"
       else if now - t < 16 * daySecs then some "8-15 days"
       else if now - t < 31 * daySecs then some "16-30 days"
       else some "31+ days") := by
  have hq := Int.fdiv_add_fmod (now - t) 86400
  have h1 := Int.fmod_nonneg' (now - t) (show (0:Int) < 86400 by norm_num)
  have h2 := Int.fmod_lt_of_pos (now - t) (show (0:Int) < 86400 by norm_num)
  simp only [get_time_bucket, daySecs]
  split_ifs <;> first | rfl | (exfalso; omega)

end Breakdown

/-- Claim C7: age bucketing assigns every timestamp to one of six fixed,
non-overlapping, exhaustive bands in ascending order; the `<24hrs` band
applies strictly when the age is less than one day, so a timestamp exactly
24 hours and 0 minutes old falls in `1-3 days`, not `<24hrs`. -/
theorem c7_time_bucket_bands (now t : Int) :
    (Breakdown.get_time_bucket now (some t) = some "<24hrs" ↔ now - t < daySecs)
    ∧ (Breakdown.get_time_bucket now (some t) = some "1-3 days" ↔
        daySecs ≤ now - t ∧ now - t < 4 * daySecs)
    ∧ (Breakdown.get_time_bucket now (some t) = some "4-7 days" ↔
        4 * daySecs ≤ now - t ∧ now - t < 8 * daySecs)
    ∧ (Breakdown.get_time_bucket now (some t) = some "8-15 days" ↔
        8 * daySecs ≤ now - t ∧ now - t < 16 * daySecs)
    ∧ (Breakdown.get_time_bucket now (some t) = some "16-30 days" ↔
        16 * daySecs ≤ now - t ∧ now - t < 31 * daySecs)
    ∧ (Breakdown.get_time_bucket now (some t) = some "31+ days" ↔
        31 * daySecs ≤ now - t)
    ∧ Breakdown.get_time_bucket now (some (now - daySecs)) = some "1-3 days" := by
  rw [Breakdown.get_time_bucket_char, Breakdown.get_time_bucket_char]
  refine ⟨?_, ?_, ?_, ?_, ?_, ?_, ?_⟩ <;>
    (split_ifs <;> simp_all [daySecs] <;> omega)

/-- Claim C10: for every non-null timestamp, `get_time_bucket` returns one of
the six band labels and never `None`; a timestamp lying in the future
relative to now is bucketed as `<24hrs` rather than rejected. -/
theorem c10_time_bucket_total (now t : Int) :
    (∃ b ∈ Breakdown.time_categories, Breakdown.get_time_bucket now (some t) = some b)
    ∧ (now < t → Breakdown.get_time_bucket now (some t) = some "<24hrs") := by
  rw [Breakdown.get_time_bucket_char]
  constructor
  · split_ifs <;> simp [Breakdown.time_categories]
  · intro h
    rw [if_pos (by simp only [daySecs]; omega)]

/-- Concrete instance for C10: a timestamp one second in the future is
bucketed `<24hrs`. -/
theorem c10_time_bucket_total_witness :
    Breakdown.get_time_bucket 0 (some 1) = some "<24hrs" :=
  (c10_time_bucket_total 0 1).2 (by norm_num)

namespace Breakdown

/-- A folder that is null or a System Folder is never a client folder. -/
theorem isClientFolderTitle_eq_false {o : Option String} (h : system_or_null o) :
    isClientFolderTitle o = false := by
  unfold system_or_null at h
  unfold isClientFolderTitle
  cases o with
  | none => rfl
  | some s => simp only [decide_eq_false_iff_not, not_not]; exact h

end Breakdown

/-- Claim C2: a candidate whose latest event's destination folder equals
`Candidate Databank` is labeled `Candidate Databank (in Cooling Period)`;
the check is first, so it takes priority over the `New (for endorsement)`
and `Rejected (for waterfall)` conditions whatever the `in_client_folder`
flag and the rejection reason are. -/
theorem c2_databank_priority :
    (∀ (row : Breakdown.Row) (inClient : Bool),
        row.folderTo = some "Candidate Databank" →
        Breakdown.get_row_label row inClient = some "Candidate Databank (in Cooling Period)")
    ∧ (∀ (df : List Breakdown.Row) (c : Nat) (row : Breakdown.Row),
        Breakdown.latest_row df c = some row →
        row.folderTo = some "Candidate Databank" →
        Breakdown.get_row_label row (Breakdown.in_client_folder df c) =
          some "Candidate Databank (in Cooling Period)") := by
  constructor
  · intro row inClient h
    unfold Breakdown.get_row_label
    rw [if_pos h]
  · intro df c row _ h
    unfold Breakdown.get_row_label
    rw [if_pos h]

/-- Concrete instance for C2: a latest row moved into the databank folder
that also has client-folder history and a rejection reason (so the
`Rejected (for waterfall)` sub-conditions hold) is still labeled databank. -/
theorem c2_databank_priority_witness :
    Breakdown.get_row_label
      ⟨1, some "Acme Client", some "Candidate Databank", 0, some "Failed interview"⟩ true
      = some "Candidate Databank (in Cooling Period)" :=
  c2_databank_priority.1 _ true rfl

/-- Claim C3: a candidate all of whose filtered events have both folders
inside the System Folder Set (or null) is never labeled
`Rejected (for waterfall)`, regardless of the rejection reason on the latest
row; the client-folder-history flag is computed over the candidate's entire
filtered event history. -/
theorem c3_system_only_never_rejected (df : List Breakdown.Row) (c : Nat)
    (hsys : ∀ r ∈ df, r.cid = c →
      Breakdown.system_or_null r.folderFrom ∧ Breakdown.system_or_null r.folderTo)
    (row : Breakdown.Row) (_hlatest : Breakdown.latest_row df c = some row) :
    Breakdown.get_row_label row (Breakdown.in_client_folder df c) ≠
      some "Rejected (for waterfall)" := by
  have hic : Breakdown.in_client_folder df c = false := by
    unfold Breakdown.in_client_folder
    rw [decide_eq_false_iff_not]
    intro hmem
    unfold Breakdown.ids_with_client_folder_history at hmem
    rw [List.mem_dedup, List.mem_map] at hmem
    obtain ⟨r, hr, hrc⟩ := hmem
    rw [List.mem_filter] at hr
    obtain ⟨hrdf, hrmask⟩ := hr
    obtain ⟨hfrom, hto⟩ := hsys r hrdf hrc
    unfold Breakdown.client_folder_activity_mask at hrmask
    rw [Breakdown.isClientFolderTitle_eq_false hfrom,
        Breakdown.isClientFolderTitle_eq_false hto] at hrmask
    simp at hrmask
  rw [hic]
  unfold Breakdown.get_row_label
  split_ifs <;> simp_all

/-- Concrete instance for C3: one system-folder-only event with a rejection
reason present does not yield the `Rejected (for waterfall)` label. -/
theorem c3_system_only_never_rejected_witness :
    Breakdown.get_row_label ⟨1, some "Inbox", some "Rejected", 5, some "No show"⟩
      (Breakdown.in_client_folder [⟨1, some "Inbox", some "Rejected", 5, some "No show"⟩] 1) ≠
      some "Rejected (for waterfall)" :=
  c3_system_only_never_rejected _ 1 (by decide) _ (by decide)

/-- Claim C5 is false on the code: the latest-activity classifier in
`Talent-pool-breakdown.py` compares raw folder strings with no case or
whitespace normalization.  The destination `"candidate databank"` has the
same normalized name as `"Candidate Databank"`, yet the classifier labels
the first row `Rejected (for waterfall)` and the second
`Candidate Databank (in Cooling Period)`. -/
theorem c5_counterexample :
    normFolder (some "candidate databank") = normFolder (some "Candidate Databank")
    ∧ Breakdown.get_row_label ⟨1, none, some "candidate databank", 0, some "Low score"⟩ true
        = some "Rejected (for waterfall)"
    ∧ Breakdown.get_row_label ⟨1, none, some "Candidate Databank", 0, some "Low score"⟩ true
        = some "Candidate Databank (in Cooling Period)" := by
  refine ⟨by decide, by decide, by decide⟩

/-- Claim C5 amended: in the transition-metric engine every folder-name
comparison (System-Folder-Set membership, the client-folder test, matching a
literal stage name) is performed on case- and whitespace-normalized names —
all three masks are invariant under normalization-preserving changes of the
folder strings; the latest-activity classifier, however, compares raw names
(see the counterexample). -/
theorem c5_amended (fcl tcl : String) (r r' : Pipeline.Row)
    (h : Pipeline.rows_norm_equiv r r') :
    Pipeline.from_mask fcl r = Pipeline.from_mask fcl r'
    ∧ Pipeline.to_mask tcl r = Pipeline.to_mask tcl r'
    ∧ Pipeline.from_time_mask fcl r = Pipeline.from_time_mask fcl r' := by
  obtain ⟨h1, h2, h3, h4⟩ := h
  unfold Pipeline.from_mask Pipeline.to_mask Pipeline.from_time_mask
  unfold Pipeline.fromNorm Pipeline.toNorm
  rw [h1, h2, h4]
  exact ⟨rfl, rfl, rfl⟩

/-- Concrete instance for C5 amended: `" PASSED mq "` and `"Passed MQ"` (and
`"  Hired"` / `"hired"`) are treated identically by all three engine masks. -/
theorem c5_amended_witness :
    Pipeline.from_mask "passed mq" ⟨1, some " PASSED mq ", some "  Hired", 0⟩
      = Pipeline.from_mask "passed mq" ⟨1, some "Passed MQ", some "hired", 0⟩
    ∧ Pipeline.to_mask "hired" ⟨1, some " PASSED mq ", some "  Hired", 0⟩
      = Pipeline.to_mask "hired" ⟨1, some "Passed MQ", some "hired", 0⟩
    ∧ Pipeline.from_time_mask "passed mq" ⟨1, some " PASSED mq ", some "  Hired", 0⟩
      = Pipeline.from_time_mask "passed mq" ⟨1, some "Passed MQ", some "hired", 0⟩ :=
  c5_amended "passed mq" "hired" _ _ (by decide)

/-- Claim C8 is false on the code: in `CANDIDATE PIPELINE CONVERSIONS.py`
the module-scope `pd.read_csv` has no `try`/`except`, so a missing input
file raises `FileNotFoundError` and no rendering (or reporting) happens —
the exception propagates unhandled. -/
theorem c8_counterexample :
    Pipeline.cp_original (none : Option (List Breakdown.RawRow)) =
      Except.error "FileNotFoundError" := rfl

/-- Claim C8 amended: when the input CSV is missing, `Talent-pool-breakdown.py`
catches the error, reports it, and halts that render; the pipeline-conversions
variant does not catch it, and the `FileNotFoundError` propagates. -/
theorem c8_amended :
    Breakdown.load_data none = none
    ∧ Breakdown.render none = Breakdown.RenderOutcome.reportedLoadFailure
    ∧ Pipeline.cp_original (none : Option (List Breakdown.RawRow)) =
        Except.error "FileNotFoundError" :=
  ⟨rfl, rfl, rfl⟩

namespace Pipeline

/-- `avgDisplay` prints `"N/A"` exactly when the duration list is empty. -/
theorem avgDisplay_eq_none_iff (l : List Int) : avgDisplay l = none ↔ l = [] := by
  cases l <;> simp [avgDisplay]

/-- Restricting `relevant_*_times` (already filtered to transitioning
candidates) to one transitioning candidate is the same as filtering the
whole table to that candidate and the mask. -/
theorem filter_relevant (df : List Row) (fcl tcl : String) (m : Row → Bool) (c : Nat)
    (hc : c ∈ cids_with_transition df fcl tcl) :
    (df.filter
        (fun r => decide (r.cid ∈ cids_with_transition df fcl tcl) && m r)).filter
        (fun r => decide (r.cid = c))
      = df.filter (fun r => decide (r.cid = c) && m r) := by
  rw [List.filter_filter]
  apply List.filter_congr
  intro r _
  by_cases hr : r.cid = c
  · simp [hr, hc]
  · simp [hr]

/-- `minTime?` of a list containing an element is `some`. -/
theorem minTime?_isSome_of_mem {l : List Int} {x : Int} (hx : x ∈ l) :
    (minTime? l).isSome = true := by
  cases l with
  | nil => cases hx
  | cons y ys =>
      show ((match minTime? ys with
            | none => some y
            | some m => some (min y m)) : Option Int).isSome = true
      cases minTime? ys <;> rfl

/-- The loop-body guard agrees with the spec's duration rule. -/
theorem duration_of_eq_spec (a b : Option Int) : duration_of a b = spec_duration a b := by
  cases a <;> cases b <;> simp [duration_of, spec_duration]
  split_ifs <;> first | rfl | omega

/-- A transitioning candidate has at least one event row. -/
theorem exists_row_of_transition {df : List Row} {fcl tcl : String} {c : Nat}
    (hc : c ∈ cids_with_transition df fcl tcl) : ∃ r ∈ df, r.cid = c := by
  unfold cids_with_transition at hc
  rw [List.mem_dedup, List.mem_map] at hc
  obtain ⟨r, hr, hrc⟩ := hc
  exact ⟨r, (List.mem_filter.mp hr).1, hrc⟩

end Pipeline

/-- Claim C1: for every transition metric over the filtered table (with the
absolute start times precomputed from that same table), and every
transitioning candidate: when the from-condition is `any` the start time is
the candidate's globally earliest event timestamp (and it exists); otherwise
it is the candidate's latest event timestamp whose destination matches the
from-stage; the end time is the candidate's latest event timestamp whose
destination matches the to-stage; and the duration contributed to the
averages is end − start in whole days, excluded whenever end < start or
either time is missing. -/
theorem c1_elapsed_time (df : List Pipeline.Row) (fcl tcl : String) (c : Nat)
    (hc : c ∈ Pipeline.cids_with_transition df fcl tcl) :
    Pipeline.from_times_per_cid df fcl tcl (Pipeline.absolute_start_times df) c
      = (if fcl = "any" then Pipeline.spec_earliest_event df c
         else Pipeline.spec_latest_into df (Pipeline.from_time_mask fcl) c)
    ∧ (fcl = "any" → (Pipeline.spec_earliest_event df c).isSome = true)
    ∧ Pipeline.to_times_per_cid df fcl tcl c
      = Pipeline.spec_latest_into df (Pipeline.to_mask tcl) c
    ∧ Pipeline.duration_contribution df fcl tcl (Pipeline.absolute_start_times df) c
      = Pipeline.spec_duration
          (if fcl = "any" then Pipeline.spec_earliest_event df c
           else Pipeline.spec_latest_into df (Pipeline.from_time_mask fcl) c)
          (Pipeline.spec_latest_into df (Pipeline.to_mask tcl) c) := by
  have hto : Pipeline.to_times_per_cid df fcl tcl c
      = Pipeline.spec_latest_into df (Pipeline.to_mask tcl) c := by
    unfold Pipeline.to_times_per_cid Pipeline.relevant_to_times Pipeline.spec_latest_into
    rw [Pipeline.filter_relevant df fcl tcl _ c hc]
  have hfrom : Pipeline.from_times_per_cid df fcl tcl (Pipeline.absolute_start_times df) c
      = (if fcl = "any" then Pipeline.spec_earliest_event df c
         else Pipeline.spec_latest_into df (Pipeline.from_time_mask fcl) c) := by
    unfold Pipeline.from_times_per_cid
    by_cases hany : fcl = "any"
    · rw [if_pos hany, if_pos hany]
      rfl
    · rw [if_neg hany, if_neg hany]
      unfold Pipeline.relevant_from_times Pipeline.spec_latest_into
      rw [Pipeline.filter_relevant df fcl tcl _ c hc]
  refine ⟨hfrom, ?_, hto, ?_⟩
  · intro _
    obtain ⟨r, hr, hrc⟩ := Pipeline.exists_row_of_transition hc
    apply Pipeline.minTime?_isSome_of_mem (x := r.activityAt)
    rw [List.mem_map]
    exact ⟨r, List.mem_filter.mpr ⟨hr, by simp [hrc]⟩, rfl⟩
  · unfold Pipeline.duration_contribution
    rw [hfrom, hto, Pipeline.duration_of_eq_spec]

/-- Concrete instance for C1: a candidate entering `Talent Pool` at time 0
and `Shortlisted` three days later, for the metric
`Talent Pool → Shortlisted`. -/
theorem c1_elapsed_time_witness :
    Pipeline.from_times_per_cid
        [Pipeline.Row.mk 1 (some "Passed MQ") (some "Talent Pool") 0,
         Pipeline.Row.mk 1 (some "Talent Pool") (some "Shortlisted") (3 * daySecs)]
        "talent pool" "shortlisted"
        (Pipeline.absolute_start_times
          [Pipeline.Row.mk 1 (some "Passed MQ") (some "Talent Pool") 0,
           Pipeline.Row.mk 1 (some "Talent Pool") (some "Shortlisted") (3 * daySecs)]) 1
      = Pipeline.spec_latest_into
          [Pipeline.Row.mk 1 (some "Passed MQ") (some "Talent Pool") 0,
           Pipeline.Row.mk 1 (some "Talent Pool") (some "Shortlisted") (3 * daySecs)]
          (Pipeline.from_time_mask "talent pool") 1 := by
  have h := c1_elapsed_time
    [Pipeline.Row.mk 1 (some "Passed MQ") (some "Talent Pool") 0,
     Pipeline.Row.mk 1 (some "Talent Pool") (some "Shortlisted") (3 * daySecs)]
    "talent pool" "shortlisted" 1 (by decide)
  simpa using h.1

/-- Claim C9: in every metric row, the unengaged-candidate count is at most
the transition count, and whenever the overall average is `"N/A"` the
engaged-subset average is `"N/A"` too. -/
theorem c9_metric_invariants (df : List Pipeline.Row) (from_condition to_condition : String)
    (total_cids : Nat) (unengaged_cids : List Nat) (app_start_times : Nat → Option Int) :
    (Pipeline.compute_metric_optimized df from_condition to_condition total_cids
        unengaged_cids app_start_times).unengagedCandidatesCount ≤
      (Pipeline.compute_metric_optimized df from_condition to_condition total_cids
        unengaged_cids app_start_times).count
    ∧ ((Pipeline.compute_metric_optimized df from_condition to_condition total_cids
          unengaged_cids app_start_times).avgTimeDays = none →
        (Pipeline.compute_metric_optimized df from_condition to_condition total_cids
          unengaged_cids app_start_times).avgTimeThresholdDays = none) := by
  unfold Pipeline.compute_metric_optimized
  constructor
  · exact List.length_filter_le _ _
  · intro hna
    rw [Pipeline.avgDisplay_eq_none_iff] at hna ⊢
    unfold Pipeline.avg_durations at hna
    unfold Pipeline.avg_time_threshold_durations
    rw [List.filterMap_eq_nil_iff] at hna ⊢
    intro a ha
    exact hna a (List.mem_of_mem_filter ha)

/-- Concrete instance for C9: a candidate who jumped straight from
`Shortlisted` to `Hired` (never entered `Shortlisted` by a move) yields
`"N/A"` for the overall average, hence also for the threshold average. -/
theorem c9_metric_invariants_witness :
    (Pipeline.compute_metric_optimized
        [Pipeline.Row.mk 1 (some "Shortlisted") (some "Hired") 0]
        "Shortlisted" "Hired" 1 [] (Pipeline.absolute_start_times
          [Pipeline.Row.mk 1 (some "Shortlisted") (some "Hired") 0])).avgTimeThresholdDays
      = none :=
  (c9_metric_invariants
    [Pipeline.Row.mk 1 (some "Shortlisted") (some "Hired") 0]
    "Shortlisted" "Hired" 1 [] (Pipeline.absolute_start_times
      [Pipeline.Row.mk 1 (some "Shortlisted") (some "Hired") 0])).2 (by decide)

namespace Breakdown

/-- The six time bands are always hit: `get_time_bucket` of a non-null
timestamp is one of `time_categories`. -/
theorem get_time_bucket_total_aux (now t : Int) :
    ∃ b ∈ time_categories, get_time_bucket now (some t) = some b := by
  rw [get_time_bucket_char]
  split_ifs <;> simp [time_categories]

/-- A row picked by `idxmax_pick` belongs to the list (folded form). -/
theorem idxmax_pick_foldl_mem (l : List Row) :
    ∀ (acc : Option Row) (r : Row),
      l.foldl
        (fun acc r =>
          match acc with
          | none => some r
          | some b => if b.activityAt < r.activityAt then some r else some b)
        acc = some r → r ∈ l ∨ acc = some r := by
  induction l with
  | nil => intro acc r h; exact Or.inr h
  | cons x xs ih =>
      intro acc r h
      rcases ih _ r h with hmem | hacc
      · exact Or.inl (List.mem_cons_of_mem x hmem)
      · cases acc with
        | none =>
            injection hacc with hx
            exact Or.inl (by rw [← hx]; exact List.mem_cons_self x xs)
        | some b =>
            change (if b.activityAt < x.activityAt then some x else some b) = some r at hacc
            by_cases hlt : b.activityAt < x.activityAt
            · rw [if_pos hlt] at hacc
              injection hacc with hx
              exact Or.inl (by rw [← hx]; exact List.mem_cons_self x xs)
            · rw [if_neg hlt] at hacc
              exact Or.inr hacc

/-- A row picked by `idxmax_pick` belongs to the list. -/
theorem idxmax_pick_mem {l : List Row} {r : Row} (h : idxmax_pick l = some r) : r ∈ l := by
  rcases idxmax_pick_foldl_mem l none r h with hmem | hacc
  · exact hmem
  · cases hacc

/-- The latest row of candidate `c` is one of `c`'s rows. -/
theorem latest_row_mem {df : List Row} {c : Nat} {r : Row}
    (h : latest_row df c = some r) : r ∈ df ∧ r.cid = c := by
  have hmem := idxmax_pick_mem h
  rw [List.mem_filter] at hmem
  exact ⟨hmem.1, by simpa using hmem.2⟩

/-- Mapping `cid` over `latest_activity` keeps one id per distinct candidate. -/
theorem map_cid_filterMap (cs : List Nat) (f : Nat → Option Row)
    (hf : ∀ c r, f c = some r → r.cid = c) :
    (cs.filterMap f).map (·.cid) = cs.filter (fun c => (f c).isSome) := by
  induction cs with
  | nil => rfl
  | cons c cs ih =>
      cases h : f c with
      | none => simp [List.filterMap_cons, h, ih]
      | some r => simp [List.filterMap_cons, h, ih, hf c r h]

/-- The candidate ids of `latest_activity` are distinct. -/
theorem latest_activity_cids_nodup (df : List Row) :
    ((latest_activity df).map (·.cid)).Nodup := by
  unfold latest_activity
  rw [map_cid_filterMap _ _ (fun c r h => (latest_row_mem h).2)]
  exact (List.nodup_dedup _).filter _

/-- Mapping `cid` over the entries of a row-to-entry `filterMap` that keeps
the id yields a sublist of the original ids. -/
theorem map_cid_filterMap_entry (rs : List Row) (g : Row → Option Entry)
    (hg : ∀ r e, g r = some e → e.cid = r.cid) :
    ((rs.filterMap g).map (·.cid)).Sublist (rs.map (·.cid)) := by
  induction rs with
  | nil => exact List.Sublist.refl _
  | cons r rs ih =>
      cases h : g r with
      | none => simp only [List.filterMap_cons, h, List.map_cons]
                exact ih.cons _
      | some e => simp only [List.filterMap_cons, h, List.map_cons, hg r e h]
                  exact ih.cons₂ _

/-- The candidate ids of `pivot_data` are distinct (one latest row per
candidate survives the label filter). -/
theorem pivot_data_cids_nodup (df : List Row) (now : Int) :
    ((pivot_data df now).map (·.cid)).Nodup := by
  unfold pivot_data
  have hsub := map_cid_filterMap_entry (latest_activity df)
    (fun r =>
      match get_row_label r (in_client_folder df r.cid) with
      | none => none
      | some lab => some ⟨r.cid, lab, get_time_bucket now (some r.activityAt)⟩)
    (by
      intro r e h
      cases hl : get_row_label r (in_client_folder df r.cid) <;> simp [hl] at h
      exact congrArg Entry.cid h.symm)
  exact hsub.nodup (latest_activity_cids_nodup df)

/-- With distinct candidate ids, `nunique` counting is plain row counting. -/
theorem nunique_eq_countP (l : List Entry) (hnd : (l.map (·.cid)).Nodup)
    (p : Entry → Bool) : nunique_cids l p = l.countP p := by
  unfold nunique_cids
  have hsub : ((l.filter p).map (·.cid)).Sublist (l.map (·.cid)) :=
    (List.filter_sublist l).map _
  rw [List.dedup_eq_self.mpr (hsub.nodup hnd), List.length_map,
    ← List.countP_eq_length_filter]

/-- Every entry of `pivot_data` carries one of the six time bands. -/
theorem pivot_entry_band (df : List Row) (now : Int) :
    ∀ e ∈ pivot_data df now, ∃ b ∈ time_categories, e.columnLabel = some b := by
  intro e he
  unfold pivot_data at he
  rw [List.mem_filterMap] at he
  obtain ⟨r, _, hr⟩ := he
  cases hl : get_row_label r (in_client_folder df r.cid) <;> rw [hl] at hr
  · cases hr
  · obtain ⟨b, hbmem, hb⟩ := get_time_bucket_total_aux now r.activityAt
    rw [← Option.some.injEq] at hr
    simp only [Option.some.injEq] at hr
    exact ⟨b, hbmem, by rw [← hr]; exact hb⟩

/-- Distributing a sum over pointwise addition. -/
theorem sum_map_add {β : Type*} (l : List β) (f g : β → Nat) :
    (l.map (fun b => f b + g b)).sum = (l.map f).sum + (l.map g).sum := by
  induction l with
  | nil => rfl
  | cons x xs ih => simp [ih]; omega

/-- An indicator summed over a list avoiding `b0` is zero. -/
theorem sum_map_indicator_zero (bands : List String) (b0 : String) (h : b0 ∉ bands) :
    (bands.map (fun b => if b0 = b then 1 else 0)).sum = 0 := by
  induction bands with
  | nil => rfl
  | cons x xs ih =>
      have hx : b0 ≠ x := fun hc => h (hc ▸ List.mem_cons_self x xs)
      simp [hx, ih (fun hc => h (List.mem_cons_of_mem x hc))]

/-- An indicator summed over a duplicate-free list containing `b0` is one. -/
theorem sum_map_indicator_one (bands : List String) (b0 : String)
    (hnd : bands.Nodup) (hmem : b0 ∈ bands) :
    (bands.map (fun b => if b0 = b then 1 else 0)).sum = 1 := by
  induction bands with
  | nil => cases hmem
  | cons x xs ih =>
      rcases List.mem_cons.mp hmem with hx | hxs
      · subst hx
        simp [sum_map_indicator_zero xs b0 (List.Nodup.not_mem hnd)]
      · have hx : b0 ≠ x := fun hc => (List.Nodup.not_mem hnd) (hc ▸ hxs)
        simp [hx, ih (List.Nodup.of_cons hnd) hxs]

/-- Each labeled entry is counted in exactly one time-band cell. -/
theorem countP_bands (l : List Entry) (lab : String)
    (hb : ∀ e ∈ l, ∃ b ∈ time_categories, e.columnLabel = some b) :
    (time_categories.map (fun b =>
        l.countP (fun e => decide (e.rowLabel = lab) && decide (e.columnLabel = some b)))).sum
      = l.countP (fun e => decide (e.rowLabel = lab)) := by
  induction l with
  | nil => simp [time_categories]
  | cons e l ih =>
      have hbl : ∀ x ∈ l, ∃ b ∈ time_categories, x.columnLabel = some b :=
        fun x hx => hb x (List.mem_cons_of_mem e hx)
      obtain ⟨b0, hb0mem, hb0⟩ := hb e (List.mem_cons_self e l)
      simp only [List.countP_cons]
      rw [sum_map_add]
      rw [ih hbl]
      by_cases hl : e.rowLabel = lab
      · have : (time_categories.map (fun b =>
            if (decide (e.rowLabel = lab) && decide (e.columnLabel = some b)) = true
            then 1 else 0)).sum = 1 := by
          have heq : ∀ b : String,
              (if (decide (e.rowLabel = lab) && decide (e.columnLabel = some b)) = true
               then 1 else 0) = (if b0 = b then 1 else 0) := by
            intro b
            by_cases hbb : b0 = b <;> simp [hl, hb0, hbb]
          rw [List.map_congr_left (fun b _ => heq b)]
          exact sum_map_indicator_one time_categories b0 (by decide) hb0mem
        rw [this]
        simp [hl]
      · have : (time_categories.map (fun b =>
            if (decide (e.rowLabel = lab) && decide (e.columnLabel = some b)) = true
            then 1 else 0)).sum = 0 := by
          have heq : ∀ b : String,
              (if (decide (e.rowLabel = lab) && decide (e.columnLabel = some b)) = true
               then 1 else 0) = 0 := by
            intro b; simp [hl]
          rw [List.map_congr_left (fun b _ => heq b)]
          simp [time_categories]
        rw [this]
        simp [hl]

end Breakdown

/-- Claim C6: in the time-band pivot table, for every label row the sum of
the cell counts across the six time bands equals the number of distinct
candidates bearing that label, and equals the row's grand-total cell. -/
theorem c6_pivot_row_sums (df : List Breakdown.Row) (now : Int) (lab : String) :
    (Breakdown.time_categories.map (fun b => Breakdown.pivot_cell df now lab b)).sum
      = Breakdown.label_total df now lab
    ∧ Breakdown.grand_total_cell df now lab = Breakdown.label_total df now lab := by
  have hnd := Breakdown.pivot_data_cids_nodup df now
  have hmain :
      (Breakdown.time_categories.map (fun b => Breakdown.pivot_cell df now lab b)).sum
        = Breakdown.label_total df now lab := by
    unfold Breakdown.pivot_cell Breakdown.label_total
    rw [Breakdown.nunique_eq_countP _ hnd]
    have hcells : ∀ b : String,
        Breakdown.nunique_cids (Breakdown.pivot_data df now)
          (fun e => decide (e.rowLabel = lab) && decide (e.columnLabel = some b))
        = (Breakdown.pivot_data df now).countP
            (fun e => decide (e.rowLabel = lab) && decide (e.columnLabel = some b)) :=
      fun b => Breakdown.nunique_eq_countP _ hnd _
    rw [List.map_congr_left (fun b _ => hcells b)]
    exact Breakdown.countP_bands _ lab (Breakdown.pivot_entry_band df now)
  exact ⟨hmain, hmain⟩

/-- `adjPairs` of a tail embeds into `adjPairs` of the whole list. -/
theorem adjPairs_sub_cons {α : Type*} {p : α × α} {x : α} {l : List α}
    (h : p ∈ adjPairs l) : p ∈ adjPairs (x :: l) := by
  cases l with
  | nil => cases h
  | cons y ys => exact List.mem_cons_of_mem (x, y) h

/-- Both components of an adjacent pair belong to the list. -/
theorem mem_of_adjPairs {α : Type*} :
    ∀ {l : List α} {a b : α}, (a, b) ∈ adjPairs l → a ∈ l ∧ b ∈ l := by
  intro l
  induction l with
  | nil => intro a b h; cases h
  | cons x xs ih =>
      intro a b h
      cases xs with
      | nil => cases h
      | cons y ys =>
          rcases List.mem_cons.mp h with heq | hmem
          · rw [Prod.mk.injEq] at heq
            obtain ⟨rfl, rfl⟩ := heq
            exact ⟨List.mem_cons_self _ _,
              List.mem_cons_of_mem _ (List.mem_cons_self _ _)⟩
          · obtain ⟨ha, hb⟩ := ih hmem
            exact ⟨List.mem_cons_of_mem _ ha, List.mem_cons_of_mem _ hb⟩

/-- An adjacent pair both of whose components survive a filter stays
adjacent after the filter. -/
theorem adjPairs_filter_of_mem {α : Type*} (pr : α → Bool) :
    ∀ (l : List α) (a b : α), (a, b) ∈ adjPairs l → pr a = true → pr b = true →
      (a, b) ∈ adjPairs (l.filter pr) := by
  intro l
  induction l with
  | nil => intro a b h _ _; cases h
  | cons x xs ih =>
      intro a b h ha hb
      cases xs with
      | nil => cases h
      | cons y ys =>
          rcases List.mem_cons.mp h with heq | hmem
          · rw [Prod.mk.injEq] at heq
            obtain ⟨rfl, rfl⟩ := heq
            rw [List.filter_cons_of_pos ha, List.filter_cons_of_pos hb]
            exact List.mem_cons_self _ _
          · have hin := ih a b hmem ha hb
            by_cases hx : pr x = true
            · rw [List.filter_cons_of_pos hx]
              exact adjPairs_sub_cons hin
            · rw [List.filter_cons_of_neg (by simpa using hx)]
              exact hin

/-- In a list sorted by candidate id then timestamp, a pair adjacent in the
restriction to one candidate id is adjacent in the whole list: sortedness
keeps each candidate's rows contiguous. -/
theorem adjPairs_filter_adjacent (c : Nat) :
    ∀ (l : List Pipeline.Row), l.Sorted Pipeline.lexLe →
      ∀ a b, (a, b) ∈ adjPairs (l.filter (fun r => decide (r.cid = c))) →
        (a, b) ∈ adjPairs l := by
  intro l
  induction l with
  | nil => intro _ a b h; cases h
  | cons x xs ih =>
      intro hs a b h
      have hs' : xs.Pairwise Pipeline.lexLe := (List.pairwise_cons.mp hs).2
      by_cases hx : (decide (x.cid = c)) = true
      · rw [List.filter_cons_of_pos (p := fun r : Pipeline.Row => decide (r.cid = c)) hx] at h
        cases hfx : xs.filter (fun r => decide (r.cid = c)) with
        | nil => rw [hfx] at h; cases h
        | cons y ys =>
            rw [hfx] at h
            rcases List.mem_cons.mp h with heq | hmem
            · rw [Prod.mk.injEq] at heq
              obtain ⟨rfl, rfl⟩ := heq
              have hy : b ∈ xs ∧ decide (b.cid = c) = true := by
                have hbmem : b ∈ xs.filter (fun r => decide (r.cid = c)) := by
                  rw [hfx]; exact List.mem_cons_self b ys
                exact List.mem_filter.mp hbmem
              cases xs with
              | nil => simp at hfx
              | cons z zs =>
                  by_cases hz : (decide (z.cid = c)) = true
                  · rw [List.filter_cons_of_pos (p := fun r : Pipeline.Row => decide (r.cid = c)) hz] at hfx
                    injection hfx with h1 _
                    rw [← h1]
                    exact List.mem_cons_self _ _
                  · exfalso
                    rw [List.filter_cons_of_neg (p := fun r : Pipeline.Row => decide (r.cid = c))
                      (by simpa using hz)] at hfx
                    have hyzs : b ∈ zs := by
                      have hbz : b ∈ zs.filter (fun r => decide (r.cid = c)) := by
                        rw [hfx]; exact List.mem_cons_self b ys
                      exact (List.mem_filter.mp hbz).1
                    have hxz : Pipeline.lexLe a z :=
                      (List.pairwise_cons.mp hs).1 z (List.mem_cons_self z zs)
                    have hzy : Pipeline.lexLe z b :=
                      (List.pairwise_cons.mp hs').1 b hyzs
                    have hxc : a.cid = c := of_decide_eq_true hx
                    have hyc : b.cid = c := of_decide_eq_true hy.2
                    have hzc : z.cid = c := by
                      unfold Pipeline.lexLe at hxz hzy; omega
                    exact hz (decide_eq_true hzc)
            · have hinner : (a, b) ∈ adjPairs (xs.filter (fun r => decide (r.cid = c))) := by
                rw [hfx]; exact hmem
              exact adjPairs_sub_cons (ih hs' a b hinner)
      · rw [List.filter_cons_of_neg (p := fun r : Pipeline.Row => decide (r.cid = c))
          (by simpa using hx)] at h
        exact adjPairs_sub_cons (ih hs' a b h)

/-- `adjPairs` commutes with `map`. -/
theorem adjPairs_map {α β : Type*} (f : α → β) :
    ∀ l : List α, adjPairs (l.map f) = (adjPairs l).map (fun p => (f p.1, f p.2)) := by
  intro l
  induction l with
  | nil => rfl
  | cons x xs ih =>
      cases xs with
      | nil => rfl
      | cons y ys =>
          show (f x, f y) :: adjPairs ((y :: ys).map f)
            = (f x, f y) :: (adjPairs (y :: ys)).map (fun p => (f p.1, f p.2))
          exact congrArg (List.cons (f x, f y)) (ih)

namespace Pipeline

/-- The timestamps of one candidate's rows of the globally sorted table are
exactly that candidate's sorted timestamps. -/
theorem sorted_times_eq (df : List Row) (c : Nat) :
    ((cp_sorted df).filter (fun r => decide (r.cid = c))).map (·.activityAt)
      = sorted_times df c := by
  have hperm : (((cp_sorted df).filter (fun r => decide (r.cid = c))).map
      (·.activityAt)).Perm (sorted_times df c) := by
    have h1 : (cp_sorted df).Perm df := List.perm_insertionSort _ _
    have h2 := (h1.filter (fun r => decide (r.cid = c))).map (·.activityAt)
    exact h2.trans (List.perm_insertionSort _ _).symm
  have hsortedL : (((cp_sorted df).filter (fun r => decide (r.cid = c))).map
      (·.activityAt)).Sorted (· ≤ ·) := by
    have hp : (cp_sorted df).Sorted lexLe := List.sorted_insertionSort _ _
    have hf : ((cp_sorted df).filter (fun r => decide (r.cid = c))).Pairwise lexLe :=
      List.Pairwise.sublist (List.filter_sublist _) hp
    have hcc : ∀ r ∈ (cp_sorted df).filter (fun r => decide (r.cid = c)), r.cid = c :=
      fun r hr => of_decide_eq_true (List.mem_filter.mp hr).2
    rw [List.Sorted, List.pairwise_map]
    refine List.Pairwise.imp_of_mem ?_ hf
    intro a b ha hb hab
    have hac := hcc a ha
    have hbc := hcc b hb
    unfold lexLe at hab
    omega
  exact List.eq_of_perm_of_sorted hperm hsortedL (List.sorted_insertionSort _ _)

/-- Membership in the unengaged set is equivalent to a gap of more than
7 days between some consecutive pair of the candidate's sorted timestamps. -/
theorem mem_unengaged_iff (df : List Row) (c : Nat) :
    c ∈ unengaged_cids_set df ↔
      ∃ p ∈ adjPairs (sorted_times df c), 7 * daySecs < p.2 - p.1 := by
  unfold unengaged_cids_set
  rw [List.mem_dedup, List.mem_map]
  constructor
  · rintro ⟨q, hq, hqc⟩
    rw [List.mem_filter] at hq
    obtain ⟨hqadj, hqp⟩ := hq
    unfold unengaged_pair at hqp
    rw [Bool.and_eq_true, decide_eq_true_iff, decide_eq_true_iff] at hqp
    obtain ⟨hdiff, hsame⟩ := hqp
    have hq1c : decide (q.1.cid = c) = true := decide_eq_true (by rw [hsame]; exact hqc)
    have hq2c : decide (q.2.cid = c) = true := decide_eq_true hqc
    have hadjf : (q.1, q.2) ∈ adjPairs ((cp_sorted df).filter (fun r => decide (r.cid = c))) :=
      adjPairs_filter_of_mem _ _ q.1 q.2 (by rw [Prod.mk.eta]; exact hqadj) hq1c hq2c
    refine ⟨(q.1.activityAt, q.2.activityAt), ?_, hdiff⟩
    rw [← sorted_times_eq df c, adjPairs_map]
    exact List.mem_map.mpr ⟨(q.1, q.2), hadjf, rfl⟩
  · rintro ⟨p, hp, hdiff⟩
    rw [← sorted_times_eq df c, adjPairs_map] at hp
    obtain ⟨q, hqadjf, hqeq⟩ := List.mem_map.mp hp
    rw [← Prod.mk.eta (p := q)] at hqadjf
    obtain ⟨hq1, hq2⟩ := mem_of_adjPairs hqadjf
    have hc1 : q.1.cid = c := of_decide_eq_true (List.mem_filter.mp hq1).2
    have hc2 : q.2.cid = c := of_decide_eq_true (List.mem_filter.mp hq2).2
    have hadj : (q.1, q.2) ∈ adjPairs (cp_sorted df) :=
      adjPairs_filter_adjacent c _ (List.sorted_insertionSort _ _) q.1 q.2 hqadjf
    refine ⟨(q.1, q.2), List.mem_filter.mpr ⟨hadj, ?_⟩, hc2⟩
    unfold unengaged_pair
    rw [Bool.and_eq_true, decide_eq_true_iff, decide_eq_true_iff]
    refine ⟨?_, by rw [hc1, hc2]⟩
    rw [Prod.mk.injEq] at hqeq
    obtain ⟨h1, h2⟩ := hqeq
    rw [h1, h2]
    exact hdiff

end Pipeline

/-- Claim C4: a candidate is marked unengaged if and only if some
consecutive pair of that candidate's events, sorted by event timestamp, is
separated by more than 7 days; in particular two events 10 days apart mark
the candidate unengaged and two events 5 days apart do not. -/
theorem c4_unengaged_iff_gap :
    (∀ (df : List Pipeline.Row) (c : Nat),
        c ∈ Pipeline.unengaged_cids_set df ↔
          ∃ p ∈ adjPairs (Pipeline.sorted_times df c), 7 * daySecs < p.2 - p.1)
    ∧ 1 ∈ Pipeline.unengaged_cids_set
        [Pipeline.Row.mk 1 none (some "Inbox") 0,
         Pipeline.Row.mk 1 none (some "Completed") (10 * daySecs)]
    ∧ 1 ∉ Pipeline.unengaged_cids_set
        [Pipeline.Row.mk 1 none (some "Inbox") 0,
         Pipeline.Row.mk 1 none (some "Completed") (5 * daySecs)] :=
  ⟨fun df c => Pipeline.mem_unengaged_iff df c, by decide, by decide⟩
